import Mathlib

/-!
Verification of `src/src/compress/compress/image_publisher.py` (ROS 2 image
publisher node).

Shallow embedding.  External collaborators are modelled as opaque capability
functions bundled in `Env`:
 - `cv2.imread`            : `decode : String → Option Img` (`None` on failure);
 - `CvBridge.cv2_to_imgmsg` followed by `pub_raw.publish` (the body of the
   first `try` block, lines 99-105): `cv2_to_imgmsg : Img → Option Raw`,
   where `none` stands for any exception raised inside that block;
 - `cv2.imencode` with parameters `[IMWRITE_PNG_COMPRESSION, png_level]`
   (the body of the second `try` block, lines 108-125):
   `imencode_png : Img → Int → Option (List Nat)`, where `none` stands for
   `success == False` or for an exception raised inside the block.
Raster buffers (`Img`) and raw message payloads (`Raw`) are abstract type
parameters: the node never inspects them, it only moves them between the
capability functions.  Timestamps (`self.get_clock().now().to_msg()`) are a
per-tick input `now : Nat`.  Publishing a message is modelled by recording it
in the tick's output; `none` in an output slot means nothing was published on
that channel during the tick.  Log lines (the throttled info log of line
127-129 and the decode-failure warning of line 92) are recorded in the output
as well, since one claim is about the throttled log's cadence.
-/

namespace ImagePublisher

/-- Parameters read once in `__init__` (lines 31-35) and used by
`timer_callback`.  `image_folder`, `publish_frequency` and `topic_name` only
affect startup wiring, not the per-tick behaviour the claims are about, so
the per-tick configuration keeps `frame_id` and `png_compression_level`. -/
structure Config where
  frame_id : String
  png_level : Int
  deriving Repr, DecidableEq

/-- The external capabilities used by one tick (see module docstring). -/
structure Env (Img Raw : Type) where
  decode : String → Option Img
  cv2_to_imgmsg : Img → Option Raw
  imencode_png : Img → Int → Option (List Nat)

/-- `std_msgs/Header`: the fields `timer_callback` writes (lines 101-102 and
110-111). -/
structure Header where
  stamp : Nat
  frame_id : String
  deriving Repr, DecidableEq

/-- `sensor_msgs/Image` as published on `pub_raw` (lines 100-103): payload
produced by `cv2_to_imgmsg`, header filled in afterwards. -/
structure RawMsg (Raw : Type) where
  header : Header
  data : Raw

/-- `sensor_msgs/CompressedImage` as published on `pub_compressed`
(lines 109-120). -/
structure CompressedMsg where
  header : Header
  format : String
  data : List Nat
  deriving Repr, DecidableEq

/-- The mutable state of the node that `timer_callback` touches:
`self.images_path` (fixed after `__init__`) and `self.current_index`. -/
structure NodeState where
  images_path : List String
  current_index : Nat
  deriving Repr, DecidableEq

/-- Everything one call of `timer_callback` emits: the message published on
each channel (`none` = that channel stayed silent this tick), the throttled
info log of line 128-129, and the decode-failure warning of line 92. -/
structure TickOutput (Raw : Type) where
  raw : Option (RawMsg Raw)
  compressed : Option CompressedMsg
  info_log : Option String
  warn_log : Option String

/-- Lexicographic comparison of character lists, mirroring Python's string
comparison (code-point by code-point, shorter prefix first). -/
def chars_le : List Char → List Char → Bool
  | [], _ => true
  | _ :: _, [] => false
  | a :: as, b :: bs =>
    if a < b then true
    else if b < a then false
    else chars_le as bs

/-- Python `str.__le__` on the embedded strings. -/
def str_le (a b : String) : Bool :=
  chars_le a.data b.data

/-- Insert into a sorted list, keeping `str_le` order. -/
def insert_le (x : String) : List String → List String
  | [] => [x]
  | y :: ys => if str_le x y then x :: y :: ys else y :: insert_le x ys

/-- `list.sort()` of line 46: sort the collected paths lexicographically
(insertion sort; Python's sort is also comparison-based and the order is
total, so the result is the same sorted list). -/
def sort_strings (l : List String) : List String :=
  l.foldr insert_le []

/-- `suf` is a suffix of `l` (character-list version, so that it reduces by
kernel computation). -/
def chars_suffix (suf l : List Char) : Bool :=
  List.isPrefixOf suf.reverse l.reverse

/-- The string starts with a dot (glob treats such entries as hidden). -/
def starts_with_dot (name : String) : Bool :=
  match name.data with
  | [] => false
  | c :: _ => c = '.'

/-- The string ends with `/` (used by `os.path.join`). -/
def ends_with_slash (dir : String) : Bool :=
  chars_suffix [('/' : Char)] dir.data

/-- POSIX `glob.glob` match of the pattern `*.{ext}` against one directory
entry: `*` matches any run of characters but glob never matches a leading
dot (hidden files), and the match is case-sensitive on POSIX, so the entry
matches exactly when it does not start with `.` and ends with `.{ext}`. -/
def glob_match (ext : String) (name : String) : Bool :=
  !starts_with_dot name && chars_suffix ('.' :: ext.data) name.data

/-- `os.path.join(dir, name)` for the shapes that occur here (a directory
and a relative entry name). -/
def os_path_join (dir name : String) : String :=
  if dir.data = [] then name
  else if ends_with_slash dir then String.mk (dir.data ++ name.data)
  else String.mk (dir.data ++ ('/' :: name.data))

/-- The image-loading logic of `__init__`, lines 38-46.  The filesystem is
abstracted as `dir_exists` (the `os.path.exists` test of line 39) and
`listing` (the directory's entries, in on-disk order; the scan is
non-recursive).  For each pattern in `('*.jpg', '*.jpeg', '*.png')` the
matching entries are appended (`glob.glob` returns them joined onto the
directory), then the whole list is sorted (line 46).  A missing directory
only logs an error and leaves the list empty (lines 39-40). -/
def load_images (dir_exists : Bool) (dir : String) (listing : List String) :
    List String :=
  if !dir_exists then []
  else
    let types := [("jpg" : String), ("jpeg" : String), ("png" : String)]
    let collected := types.foldl
      (fun acc ext =>
        acc ++ (listing.filter (fun f => glob_match ext f)).map
          (fun f => os_path_join dir f))
      []
    sort_strings collected

/-- Node state right after `__init__`: the loaded path list and
`self.current_index = 0` (line 53). -/
def init_state (paths : List String) : NodeState :=
  { images_path := paths, current_index := 0 }

/-- Characters after the last `/`: `cur` accumulates the current path
component (in reverse) and is reset at every slash. -/
def basename_aux (cur : List Char) : List Char → List Char
  | [] => cur.reverse
  | c :: cs => if c = '/' then basename_aux [] cs else basename_aux (c :: cur) cs

/-- `os.path.basename` for POSIX paths: the part after the last slash. -/
def basename (p : String) : String :=
  String.mk (basename_aux [] p.data)

/-- `self.images_path[self.current_index]` (line 86).  The Python indexing
presupposes a valid index; the embedding totalises it with a default that is
never reached while the cursor invariant holds. -/
def selected_path (s : NodeState) : String :=
  s.images_path.getD s.current_index ("")

/-- `_advance_index` (lines 133-136): increment the cursor and wrap to 0
once it reaches the length of the list. -/
def _advance_index (s : NodeState) : NodeState :=
  let i := s.current_index + 1
  if i ≥ s.images_path.length then { s with current_index := 0 }
  else { s with current_index := i }

/-- `timer_callback` (lines 81-131), one tick:
1. empty list → return immediately (lines 82-83);
2. read the image at the cursor (lines 86-89); on decode failure log a
   warning, advance the cursor and return (lines 91-94);
3. capture one timestamp (line 96);
4. try the raw path: convert, stamp, publish; an exception only skips this
   channel (lines 99-105);
5. try the compressed path: build the message with `format = "png"`, encode
   as PNG at the configured level, publish on success; a failure only skips
   this channel (lines 108-125);
6. emit the info log when `current_index % 15 == 0` (lines 127-129);
7. advance the cursor (line 131). -/
def timer_callback {Img Raw : Type} (env : Env Img Raw) (cfg : Config)
    (now : Nat) (s : NodeState) : NodeState × TickOutput Raw :=
  if s.images_path.isEmpty then
    (s, { raw := none, compressed := none, info_log := none, warn_log := none })
  else
    let img_path := selected_path s
    match env.decode img_path with
    | none =>
      (_advance_index s,
        { raw := none, compressed := none, info_log := none,
          warn_log := some img_path })
    | some cv_img =>
      let timestamp := now
      let raw : Option (RawMsg Raw) :=
        match env.cv2_to_imgmsg cv_img with
        | some payload =>
          some { header := { stamp := timestamp, frame_id := cfg.frame_id },
                 data := payload }
        | none => none
      let compressed : Option CompressedMsg :=
        match env.imencode_png cv_img cfg.png_level with
        | some bytes =>
          some { header := { stamp := timestamp, frame_id := cfg.frame_id },
                 format := "png", data := bytes }
        | none => none
      let info_log : Option String :=
        if s.current_index % 15 == 0 then some (basename img_path) else none
      (_advance_index s,
        { raw := raw, compressed := compressed, info_log := info_log,
          warn_log := none })

/-- The state after one tick. -/
def tick_state {Img Raw : Type} (env : Env Img Raw) (cfg : Config)
    (now : Nat) (s : NodeState) : NodeState :=
  (timer_callback env cfg now s).1

/-- The state after `n` consecutive timer firings; `times i` is the clock
value at the `i`-th firing. -/
def run_state {Img Raw : Type} (env : Env Img Raw) (cfg : Config)
    (times : Nat → Nat) : Nat → NodeState → NodeState
  | 0, s => s
  | n + 1, s =>
    run_state env cfg (fun i => times (i + 1)) n (tick_state env cfg (times 0) s)

/-- The outputs of `n` consecutive ticks, in firing order. -/
def run_outputs {Img Raw : Type} (env : Env Img Raw) (cfg : Config)
    (times : Nat → Nat) : Nat → NodeState → List (TickOutput Raw)
  | 0, _ => []
  | n + 1, s =>
    (timer_callback env cfg (times 0) s).2 ::
      run_outputs env cfg (fun i => times (i + 1)) n (tick_state env cfg (times 0) s)

/-- The path each of `n` consecutive ticks selects at line 86 (the frame the
tick attempts), in firing order. -/
def run_visits {Img Raw : Type} (env : Env Img Raw) (cfg : Config)
    (times : Nat → Nat) : Nat → NodeState → List String
  | 0, _ => []
  | n + 1, s =>
    selected_path s ::
      run_visits env cfg (fun i => times (i + 1)) n (tick_state env cfg (times 0) s)

/-! Helper lemmas shared by the claim theorems. -/

/-- A tick on an empty image list returns immediately: same state, nothing
published, no logs (lines 82-83). -/
theorem timer_callback_empty {Img Raw : Type} (env : Env Img Raw) (cfg : Config)
    (now : Nat) (s : NodeState) (h : s.images_path = []) :
    timer_callback env cfg now s =
      (s, { raw := none, compressed := none, info_log := none, warn_log := none }) := by
  unfold timer_callback
  simp [h]

/-- `_advance_index` never changes the image list. -/
theorem _advance_index_images (s : NodeState) :
    (_advance_index s).images_path = s.images_path := by
  unfold _advance_index
  by_cases h : s.current_index + 1 ≥ s.images_path.length <;> simp [h]

/-- `_advance_index` from a valid cursor is increment mod length. -/
theorem _advance_index_eq (s : NodeState)
    (h : s.current_index < s.images_path.length) :
    (_advance_index s).current_index =
      (s.current_index + 1) % s.images_path.length := by
  unfold _advance_index
  by_cases hge : s.current_index + 1 ≥ s.images_path.length
  · have heq : s.current_index + 1 = s.images_path.length := le_antisymm h hge
    simp [hge, heq]
  · have hlt : s.current_index + 1 < s.images_path.length := lt_of_not_ge hge
    simp [hge, Nat.mod_eq_of_lt hlt]

/-- On a non-empty list the tick always ends in `_advance_index`, whether the
decode failed or succeeded. -/
theorem tick_state_nonempty {Img Raw : Type} (env : Env Img Raw) (cfg : Config)
    (now : Nat) (s : NodeState) (h : s.images_path ≠ []) :
    tick_state env cfg now s = _advance_index s := by
  unfold tick_state timer_callback
  have hne : s.images_path.isEmpty = false := by
    simpa [List.isEmpty_iff] using h
  simp only [hne, Bool.false_eq_true, if_false]
  cases env.decode (selected_path s) <;> simp

/-- The tick never changes the image list. -/
theorem tick_state_images {Img Raw : Type} (env : Env Img Raw) (cfg : Config)
    (now : Nat) (s : NodeState) :
    (tick_state env cfg now s).images_path = s.images_path := by
  by_cases h : s.images_path = []
  · rw [show tick_state env cfg now s = s from congrArg Prod.fst (timer_callback_empty env cfg now s h)]
  · rw [tick_state_nonempty env cfg now s h, _advance_index_images]

/-- After `n` ticks from a valid cursor `k` on a non-empty list of length
`N`, the list is unchanged and the cursor is `(k + n) % N`. -/
theorem run_state_spec {Img Raw : Type} (env : Env Img Raw) (cfg : Config)
    (n : Nat) :
    ∀ (times : Nat → Nat) (s : NodeState), s.images_path ≠ [] →
      s.current_index < s.images_path.length →
      (run_state env cfg times n s).images_path = s.images_path ∧
      (run_state env cfg times n s).current_index =
        (s.current_index + n) % s.images_path.length := by
  induction n with
  | zero =>
    intro times s h hk
    exact ⟨rfl, (Nat.mod_eq_of_lt hk).symm⟩
  | succ n ih =>
    intro times s h hk
    have hNpos : 0 < s.images_path.length := List.length_pos.mpr h
    have himg : (tick_state env cfg (times 0) s).images_path = s.images_path :=
      tick_state_images env cfg (times 0) s
    have hidx : (tick_state env cfg (times 0) s).current_index =
        (s.current_index + 1) % s.images_path.length := by
      rw [tick_state_nonempty env cfg (times 0) s h, _advance_index_eq s hk]
    have hne : (tick_state env cfg (times 0) s).images_path ≠ [] := by
      rw [himg]; exact h
    have hlt : (tick_state env cfg (times 0) s).current_index <
        (tick_state env cfg (times 0) s).images_path.length := by
      rw [himg, hidx]; exact Nat.mod_lt _ hNpos
    obtain ⟨h1, h2⟩ := ih (fun i => times (i + 1)) (tick_state env cfg (times 0) s) hne hlt
    constructor
    · rw [show run_state env cfg times (n + 1) s =
        run_state env cfg (fun i => times (i + 1)) n (tick_state env cfg (times 0) s) from rfl]
      rw [h1, himg]
    · rw [show run_state env cfg times (n + 1) s =
        run_state env cfg (fun i => times (i + 1)) n (tick_state env cfg (times 0) s) from rfl]
      rw [h2, himg, hidx, Nat.mod_add_mod]
      rw [Nat.add_assoc, Nat.add_comm 1 n]

/-! Concrete instances used by witnesses and counterexamples. -/

/-- An environment in which every step succeeds. -/
def wenv : Env Unit Unit :=
  { decode := fun _ => some ()
    cv2_to_imgmsg := fun _ => some ()
    imencode_png := fun _ _ => some [1, 2, 3] }

/-- A concrete configuration (the node's parameter defaults). -/
def wcfg : Config := { frame_id := "camera_link", png_level := 3 }

/-! Claim theorems. -/

/-- C1: if one tick publishes both the Raw and the Compressed message, the
two carry the same header: the timestamp is the single clock value captured
after the successful decode, and both frame identifiers equal the configured
frame id. -/
theorem raw_compressed_correlated {Img Raw : Type} (env : Env Img Raw)
    (cfg : Config) (now : Nat) (s : NodeState) (r : RawMsg Raw)
    (c : CompressedMsg)
    (hr : (timer_callback env cfg now s).2.raw = some r)
    (hc : (timer_callback env cfg now s).2.compressed = some c) :
    r.header = c.header ∧ r.header.stamp = now ∧ c.header.stamp = now ∧
      r.header.frame_id = cfg.frame_id ∧ c.header.frame_id = cfg.frame_id := by
  unfold timer_callback at hr hc
  by_cases h : s.images_path.isEmpty
  · simp [h] at hr
  · simp only [h, Bool.false_eq_true, if_false] at hr hc
    cases hd : env.decode (selected_path s) <;> rw [hd] at hr hc
    · simp at hr
    · simp only at hr hc
      cases hm : env.cv2_to_imgmsg _ <;> rw [hm] at hr <;> simp at hr
      cases he : env.imencode_png _ _ <;> rw [he] at hc <;> simp at hc
      rw [← hr, ← hc]
      exact ⟨rfl, rfl, rfl, rfl, rfl⟩

/-- C1 witness: a concrete tick in the all-success environment publishes
both messages and they share the header. -/
theorem raw_compressed_correlated_witness :
    (timer_callback wenv wcfg 5 (init_state ["d/a.png"])).2.raw =
      some { header := { stamp := 5, frame_id := "camera_link" }, data := () } ∧
    (timer_callback wenv wcfg 5 (init_state ["d/a.png"])).2.compressed =
      some { header := { stamp := 5, frame_id := "camera_link" },
             format := "png", data := [1, 2, 3] } ∧
    ({ header := { stamp := 5, frame_id := "camera_link" },
       data := () } : RawMsg Unit).header =
      ({ header := { stamp := 5, frame_id := "camera_link" },
         format := "png", data := [1, 2, 3] } : CompressedMsg).header :=
  ⟨rfl, rfl,
    (raw_compressed_correlated wenv wcfg 5 (init_state ["d/a.png"]) _ _ rfl rfl).1⟩

/-- C2: on a non-empty image list of length `N`, starting from any valid
cursor, `N` consecutive ticks bring the cursor back to its starting value. -/
theorem cursor_cycle {Img Raw : Type} (env : Env Img Raw) (cfg : Config)
    (times : Nat → Nat) (s : NodeState) (h : s.images_path ≠ [])
    (hk : s.current_index < s.images_path.length) :
    (run_state env cfg times s.images_path.length s).current_index =
      s.current_index := by
  rw [(run_state_spec env cfg s.images_path.length times s h hk).2]
  rw [Nat.add_mod_right, Nat.mod_eq_of_lt hk]

/-- C2 witness: two images, cursor starting at 1, two ticks return it to 1. -/
theorem cursor_cycle_witness :
    ({ images_path := ["d/a.png", "d/b.png"], current_index := 1 } :
        NodeState).images_path ≠ [] ∧
    ({ images_path := ["d/a.png", "d/b.png"], current_index := 1 } :
        NodeState).current_index <
      ({ images_path := ["d/a.png", "d/b.png"], current_index := 1 } :
        NodeState).images_path.length ∧
    (run_state wenv wcfg (fun i => i)
      ({ images_path := ["d/a.png", "d/b.png"], current_index := 1 } :
        NodeState).images_path.length
      { images_path := ["d/a.png", "d/b.png"], current_index := 1 }).current_index = 1 :=
  ⟨by simp, by simp,
    cursor_cycle wenv wcfg (fun i => i)
      { images_path := ["d/a.png", "d/b.png"], current_index := 1 }
      (by simp) (by simp)⟩

/-- C3: if the decode of the frame at valid cursor `k` fails, the tick
publishes nothing on either channel, the cursor moves to `(k + 1) % N`, and
the next tick selects the frame at `(k + 1) % N` instead of retrying `k`. -/
theorem decode_failure_skips_frame {Img Raw : Type} (env : Env Img Raw)
    (cfg : Config) (now : Nat) (s : NodeState) (h : s.images_path ≠ [])
    (hk : s.current_index < s.images_path.length)
    (hd : env.decode (selected_path s) = none) :
    (timer_callback env cfg now s).2.raw = none ∧
    (timer_callback env cfg now s).2.compressed = none ∧
    (tick_state env cfg now s).current_index =
      (s.current_index + 1) % s.images_path.length ∧
    selected_path (tick_state env cfg now s) =
      s.images_path.getD ((s.current_index + 1) % s.images_path.length) ("") := by
  have hne : s.images_path.isEmpty = false := by
    simpa [List.isEmpty_iff] using h
  have hidx : (tick_state env cfg now s).current_index =
      (s.current_index + 1) % s.images_path.length := by
    rw [tick_state_nonempty env cfg now s h, _advance_index_eq s hk]
  refine ⟨?_, ?_, hidx, ?_⟩
  · unfold timer_callback
    simp [hne, hd]
  · unfold timer_callback
    simp [hne, hd]
  · unfold selected_path
    rw [tick_state_images env cfg now s, hidx]

/-- C3 witness: with a decoder that fails exactly on `d/a.png`, the tick at
cursor 0 of `[d/a.png, d/b.png]` publishes nothing and the next tick selects
`d/b.png`. -/
theorem decode_failure_skips_frame_witness :
    ({ images_path := ["d/a.png", "d/b.png"], current_index := 0 } :
        NodeState).images_path ≠ [] ∧
    (Env.mk (fun p => if p = ("d/a.png" : String) then none else some ())
        (fun _ => some ()) (fun _ _ => some [1]) : Env Unit Unit).decode
      (selected_path { images_path := ["d/a.png", "d/b.png"], current_index := 0 }) = none ∧
    (timer_callback
        (Env.mk (fun p => if p = ("d/a.png" : String) then none else some ())
          (fun _ => some ()) (fun _ _ => some [1]))
        wcfg 0
        { images_path := ["d/a.png", "d/b.png"], current_index := 0 }).2.raw = none ∧
    selected_path (tick_state
        (Env.mk (fun p => if p = ("d/a.png" : String) then none else some ())
          (fun _ => some ()) (fun _ _ => some [1]))
        wcfg 0
        { images_path := ["d/a.png", "d/b.png"], current_index := 0 }) = "d/b.png" :=
  ⟨by simp, rfl,
    (decode_failure_skips_frame
      (Env.mk (fun p => if p = ("d/a.png" : String) then none else some ())
        (fun _ => some ()) (fun _ _ => some [1]))
      wcfg 0 { images_path := ["d/a.png", "d/b.png"], current_index := 0 }
      (by simp) (by simp) rfl).1,
    by
      rw [(decode_failure_skips_frame
        (Env.mk (fun p => if p = ("d/a.png" : String) then none else some ())
          (fun _ => some ()) (fun _ _ => some [1]))
        wcfg 0 { images_path := ["d/a.png", "d/b.png"], current_index := 0 }
        (by simp) (by simp) rfl).2.2.2]
      rfl⟩

/-- C4: after a successful decode, the compressed path publishes whenever the
PNG encode succeeds, no matter what the raw conversion-and-publish step did
(the environment's `cv2_to_imgmsg` is arbitrary, in particular it may always
fail); symmetrically, the raw path publishes whenever the conversion
succeeds, no matter what the PNG encode did. -/
theorem channel_isolation {Img Raw : Type} (env : Env Img Raw) (cfg : Config)
    (now : Nat) (s : NodeState) (img : Img) (h : s.images_path ≠ [])
    (hd : env.decode (selected_path s) = some img) :
    (∀ bytes, env.imencode_png img cfg.png_level = some bytes →
      (timer_callback env cfg now s).2.compressed =
        some { header := { stamp := now, frame_id := cfg.frame_id },
               format := "png", data := bytes }) ∧
    (∀ payload, env.cv2_to_imgmsg img = some payload →
      (timer_callback env cfg now s).2.raw =
        some { header := { stamp := now, frame_id := cfg.frame_id },
               data := payload }) := by
  have hne : s.images_path.isEmpty = false := by
    simpa [List.isEmpty_iff] using h
  constructor
  · intro bytes he
    unfold timer_callback
    simp [hne, hd, he]
  · intro payload hm
    unfold timer_callback
    simp [hne, hd, hm]

/-- C4 witness: in an environment whose raw conversion always fails, the
compressed message of the tick is still published; in an environment whose
PNG encode always fails, the raw message is still published. -/
theorem channel_isolation_witness :
    (timer_callback
        (Env.mk (fun _ => some ()) (fun _ => none) (fun _ _ => some [9]) : Env Unit Unit)
        wcfg 7 (init_state ["d/a.png"])).2.compressed =
      some { header := { stamp := 7, frame_id := "camera_link" },
             format := "png", data := [9] } ∧
    (timer_callback
        (Env.mk (fun _ => some ()) (fun _ => some ()) (fun _ _ => none) : Env Unit Unit)
        wcfg 7 (init_state ["d/a.png"])).2.raw =
      some { header := { stamp := 7, frame_id := "camera_link" }, data := () } :=
  ⟨(channel_isolation
      (Env.mk (fun _ => some ()) (fun _ => none) (fun _ _ => some [9]))
      wcfg 7 (init_state ["d/a.png"]) () (by simp [init_state]) rfl).1 [9] rfl,
    (channel_isolation
      (Env.mk (fun _ => some ()) (fun _ => some ()) (fun _ _ => none))
      wcfg 7 (init_state ["d/a.png"]) () (by simp [init_state]) rfl).2 () rfl⟩

/-- C5: with an empty image list, any number of ticks leaves the state (hence
the cursor) unchanged and publishes nothing on either channel; the tick is a
total function, so no exception escapes it. -/
theorem empty_sequence_noop {Img Raw : Type} (env : Env Img Raw) (cfg : Config)
    (n : Nat) :
    ∀ (times : Nat → Nat) (s : NodeState), s.images_path = [] →
      run_state env cfg times n s = s ∧
      ∀ o ∈ run_outputs env cfg times n s, o.raw = none ∧ o.compressed = none := by
  induction n with
  | zero =>
    intro times s h
    exact ⟨rfl, by intro o ho; simp [run_outputs] at ho⟩
  | succ n ih =>
    intro times s h
    have htick := timer_callback_empty env cfg (times 0) s h
    have hstate : tick_state env cfg (times 0) s = s := congrArg Prod.fst htick
    obtain ⟨h1, h2⟩ := ih (fun i => times (i + 1)) s h
    constructor
    · show run_state env cfg (fun i => times (i + 1)) n (tick_state env cfg (times 0) s) = s
      rw [hstate, h1]
    · intro o ho
      rw [show run_outputs env cfg times (n + 1) s =
          (timer_callback env cfg (times 0) s).2 ::
            run_outputs env cfg (fun i => times (i + 1)) n
              (tick_state env cfg (times 0) s) from rfl, hstate] at ho
      rcases List.mem_cons.mp ho with hh | ht
      · rw [hh, congrArg Prod.snd htick]
        exact ⟨rfl, rfl⟩
      · exact h2 o ht

/-- C5 witness: five ticks from an empty list change nothing and publish
nothing. -/
theorem empty_sequence_noop_witness :
    run_state wenv wcfg (fun i => i) 5 (init_state []) = init_state [] ∧
    ∀ o ∈ run_outputs wenv wcfg (fun i => i) 5 (init_state []),
      o.raw = none ∧ o.compressed = none :=
  empty_sequence_noop wenv wcfg 5 (fun i => i) (init_state []) rfl

/-- C6: the cursor starts at 0; on a non-empty list a tick increments it by
one, wrapping to 0 when it reaches the length, so validity is preserved; on
an empty list the tick is a no-op. -/
theorem cursor_invariant {Img Raw : Type} (env : Env Img Raw) (cfg : Config)
    (now : Nat) (s : NodeState) (paths : List String) :
    (init_state paths).current_index = 0 ∧
    (s.images_path ≠ [] → s.current_index < s.images_path.length →
      (tick_state env cfg now s).current_index =
        (if s.current_index + 1 ≥ s.images_path.length then 0
         else s.current_index + 1) ∧
      (tick_state env cfg now s).current_index < s.images_path.length) ∧
    (s.images_path = [] → tick_state env cfg now s = s) := by
  refine ⟨rfl, ?_, ?_⟩
  · intro h hk
    have hNpos : 0 < s.images_path.length := List.length_pos.mpr h
    rw [tick_state_nonempty env cfg now s h]
    unfold _advance_index
    constructor
    · by_cases hge : s.current_index + 1 ≥ s.images_path.length <;> simp [hge]
    · by_cases hge : s.current_index + 1 ≥ s.images_path.length
      · simpa [hge] using hNpos
      · simpa [hge] using lt_of_not_ge hge
  · intro h
    exact congrArg Prod.fst (timer_callback_empty env cfg now s h)

/-- C6 witness: on a two-image list at cursor 1 the tick wraps the cursor
to 0 and keeps it valid. -/
theorem cursor_invariant_witness :
    (init_state ["d/a.png"]).current_index = 0 ∧
    (tick_state wenv wcfg 0
      { images_path := ["d/a.png", "d/b.png"], current_index := 1 }).current_index = 0 ∧
    (tick_state wenv wcfg 0
      { images_path := ["d/a.png", "d/b.png"], current_index := 1 }).current_index < 2 :=
  ⟨(cursor_invariant wenv wcfg 0 (init_state []) ["d/a.png"]).1,
    by
      have := (cursor_invariant wenv wcfg 0
        { images_path := ["d/a.png", "d/b.png"], current_index := 1 } []).2.1
        (by simp) (by simp)
      simpa using this⟩

/-- C7: loading a directory that holds exactly `a.png, c.jpg, b.png` yields
the lexicographically sorted sequence `a.png, b.png, c.jpg` (sorted across
the extension groups after collection), and ticks 1-4 visit
`a.png, b.png, c.jpg, a.png`. -/
theorem scenario_lexicographic_cycle :
    load_images true ("d") ["a.png", "c.jpg", "b.png"] =
      ["d/a.png", "d/b.png", "d/c.jpg"] ∧
    run_visits wenv wcfg (fun i => i) 4
      (init_state (load_images true ("d") ["a.png", "c.jpg", "b.png"])) =
      ["d/a.png", "d/b.png", "d/c.jpg", "d/a.png"] :=
  ⟨rfl, rfl⟩

/-- C8 counterexample: files with uppercase extensions such as `.JPG` or
`.PNG` are NOT included by the load step — the glob patterns
`*.jpg, *.jpeg, *.png` are case-sensitive on POSIX — contradicting the
claim that any case variant is included. -/
theorem uppercase_extension_excluded :
    load_images true ("d") ["photo.JPG", "photo.PNG"] = [] :=
  rfl

/-- Membership in `insert_le` is membership in the parts. -/
theorem mem_insert_le (x y : String) (l : List String) :
    y ∈ insert_le x l ↔ y = x ∨ y ∈ l := by
  induction l with
  | nil => simp [insert_le]
  | cons a as ih =>
    unfold insert_le
    by_cases h : str_le x a
    · simp [h]
    · simp only [h, Bool.false_eq_true, if_false, List.mem_cons, ih]
      tauto

/-- Sorting does not change membership. -/
theorem mem_sort_strings (y : String) (l : List String) :
    y ∈ sort_strings l ↔ y ∈ l := by
  induction l with
  | nil => simp [sort_strings]
  | cons a as ih =>
    show y ∈ insert_le a (sort_strings as) ↔ _
    rw [mem_insert_le]
    simp [ih]

/-- C8 amended: the load step scans the listing non-recursively and includes
exactly the non-hidden entries whose extension is the lowercase `.jpg`,
`.jpeg` or `.png` (the glob match is case-sensitive, so `.JPG` is excluded),
each joined onto the directory; a missing directory yields the empty
sequence, the condition being only logged. -/
theorem load_images_characterization (dir : String) (listing : List String)
    (p : String) :
    load_images false dir listing = [] ∧
    (p ∈ load_images true dir listing ↔
      ∃ f, f ∈ listing ∧ p = os_path_join dir f ∧
        (glob_match ("jpg") f = true ∨ glob_match ("jpeg") f = true ∨
          glob_match ("png") f = true)) := by
  refine ⟨rfl, ?_⟩
  have hunfold : load_images true dir listing =
      sort_strings
        (((listing.filter (fun f => glob_match ("jpg") f)).map
            (fun f => os_path_join dir f) ++
          (listing.filter (fun f => glob_match ("jpeg") f)).map
            (fun f => os_path_join dir f)) ++
          (listing.filter (fun f => glob_match ("png") f)).map
            (fun f => os_path_join dir f)) := by
    unfold load_images
    rfl
  rw [hunfold, mem_sort_strings]
  simp only [List.mem_append, List.mem_map, List.mem_filter]
  constructor
  · rintro ((⟨f, ⟨hf, hm⟩, rfl⟩ | ⟨f, ⟨hf, hm⟩, rfl⟩) | ⟨f, ⟨hf, hm⟩, rfl⟩)
    · exact ⟨f, hf, rfl, Or.inl hm⟩
    · exact ⟨f, hf, rfl, Or.inr (Or.inl hm)⟩
    · exact ⟨f, hf, rfl, Or.inr (Or.inr hm)⟩
  · rintro ⟨f, hf, rfl, hm | hm | hm⟩
    · exact Or.inl (Or.inl ⟨f, ⟨hf, hm⟩, rfl⟩)
    · exact Or.inl (Or.inr ⟨f, ⟨hf, hm⟩, rfl⟩)
    · exact Or.inr ⟨f, ⟨hf, hm⟩, rfl⟩

/-- C9 counterexample: with a single always-decodable image the cursor is 0
on every tick, so the info log is emitted on two consecutive successfully
decoded ticks — not once every 15 ticks as the claim states. -/
theorem throttled_log_not_every_15 :
    (timer_callback wenv wcfg 0 (init_state ["d/a.png"])).2.info_log =
      some ("a.png") ∧
    (timer_callback wenv wcfg 1
      (tick_state wenv wcfg 0 (init_state ["d/a.png"]))).2.info_log =
      some ("a.png") :=
  ⟨rfl, rfl⟩

/-- C9 amended: on a successfully decoded tick the info log is emitted
exactly when the cursor value at that tick is divisible by 15 (the check is
`current_index % 15 == 0`, on the cyclic cursor, not on a tick counter), and
it names the basename of the frame just processed. -/
theorem throttled_log_cursor_cadence {Img Raw : Type} (env : Env Img Raw)
    (cfg : Config) (now : Nat) (s : NodeState) (img : Img)
    (h : s.images_path ≠ []) (hd : env.decode (selected_path s) = some img) :
    (timer_callback env cfg now s).2.info_log =
      (if s.current_index % 15 = 0 then some (basename (selected_path s))
       else none) := by
  have hne : s.images_path.isEmpty = false := by
    simpa [List.isEmpty_iff] using h
  unfold timer_callback
  simp only [hne, Bool.false_eq_true, if_false, hd]
  by_cases h15 : s.current_index % 15 = 0 <;> simp [h15]

/-- C9 amended witness: at cursor 0 the log fires and names `a.png`. -/
theorem throttled_log_cursor_cadence_witness :
    (init_state ["d/a.png", "d/b.png"]).images_path ≠ [] ∧
    wenv.decode (selected_path (init_state ["d/a.png", "d/b.png"])) = some () ∧
    (timer_callback wenv wcfg 0 (init_state ["d/a.png", "d/b.png"])).2.info_log =
      (if (init_state ["d/a.png", "d/b.png"]).current_index % 15 = 0
       then some (basename (selected_path (init_state ["d/a.png", "d/b.png"])))
       else none) :=
  ⟨by simp [init_state], rfl,
    throttled_log_cursor_cadence wenv wcfg 0 (init_state ["d/a.png", "d/b.png"])
      () (by simp [init_state]) rfl⟩

/-- C10: whatever the source file's extension, a published Compressed
message has `format = "png"` and its data is exactly the PNG encoding, at
the configured compression level, of the raster buffer the decode produced
(never the file's original bytes, which the node never touches). -/
theorem compressed_is_png_reencoding {Img Raw : Type} (env : Env Img Raw)
    (cfg : Config) (now : Nat) (s : NodeState) (c : CompressedMsg)
    (hc : (timer_callback env cfg now s).2.compressed = some c) :
    c.format = "png" ∧
    ∃ img, env.decode (selected_path s) = some img ∧
      env.imencode_png img cfg.png_level = some c.data := by
  unfold timer_callback at hc
  by_cases h : s.images_path.isEmpty
  · simp [h] at hc
  · simp only [h, Bool.false_eq_true, if_false] at hc
    cases hd : env.decode (selected_path s) <;> rw [hd] at hc
    · simp at hc
    · simp only at hc
      cases he : env.imencode_png _ _ <;> rw [he] at hc <;> simp at hc
      refine ⟨?_, _, rfl, ?_⟩
      · rw [← hc]
      · rw [← hc]
        exact he

/-- C10 witness: a `.jpg` source file still yields a `"png"`-format message
whose data is the encoder's output. -/
theorem compressed_is_png_reencoding_witness :
    (timer_callback wenv wcfg 2 (init_state ["d/x.jpg"])).2.compressed =
      some { header := { stamp := 2, frame_id := "camera_link" },
             format := "png", data := [1, 2, 3] } ∧
    ({ header := { stamp := 2, frame_id := "camera_link" },
       format := "png", data := [1, 2, 3] } : CompressedMsg).format = "png" :=
  ⟨rfl,
    (compressed_is_png_reencoding wenv wcfg 2 (init_state ["d/x.jpg"]) _ rfl).1⟩

end ImagePublisher
